import Mathlib

/-!
Shallow embedding of `src/live.py`, a single-instrument periodic trading
engine.  Prices, quantities and balances are modelled as rationals (the
Python source uses floats), timestamps as rationals counting minutes.
File-system effects (the JSON state file and the CSV journal) are
modelled by an explicit `World` record threaded through `run_cycle`;
fallible I/O operations (the HTTP fetch, the journal append, the state
save) are modelled as atomic: each either succeeds completely or raises,
controlled by a `Faults` oracle.  The Python `try/except` wrapper around
the cycle body is modelled by `run_cycle` discarding the error component
of `run_cycle_body`.
-/

namespace Scp

/-- Settings from the source header (lines 8-13 of `live.py`). -/
def LEVERAGE : ℚ := 20

def INITIAL_CAPITAL : ℚ := 1200

def TP_PCT : ℚ := 0.0005

def SL_PCT : ℚ := 0.0015

def ATR_MIN : ℚ := 8

def ATR_MAX : ℚ := 18

def COOLDOWN_MINS : ℚ := 30

/-- One OHLC bar; field names follow the renamed DataFrame columns
(`live.py` line 43).  `Timestamp` counts minutes. -/
structure Bar where
  Timestamp : ℚ
  Open : ℚ
  High : ℚ
  Low : ℚ
  Close : ℚ
deriving DecidableEq, Repr

/-- Trade direction (`t['type']` is the string "LONG" or "SHORT"). -/
inductive Dir where
  | LONG
  | SHORT
deriving DecidableEq, Repr

/-- The `active_trade` dictionary built at entry (`live.py` lines 91-96). -/
structure Trade where
  type : Dir
  entry_time : ℚ
  entry_price : ℚ
  qty : ℚ
  tp : ℚ
  sl : ℚ
deriving DecidableEq, Repr

/-- The persisted engine state (`trading_state.json`): balance, optional
active trade, optional last exit time. -/
structure EngineState where
  balance : ℚ
  active_trade : Option Trade
  last_exit_time : Option ℚ
deriving DecidableEq, Repr

/-- One row appended to `trading_journal.csv` (`live.py` lines 68-73).
`round(x, n)` in the source is modelled by `roundQ x n`. -/
structure TradeRecord where
  entry_time : ℚ
  exit_time : ℚ
  type : Dir
  entry_price : ℚ
  exit_price : ℚ
  qty : ℚ
  pnl : ℚ
  final_balance : ℚ
deriving DecidableEq, Repr

/-- The file system visible to the engine: the JSON state file (absent
before the first save) and the CSV journal rows. -/
structure World where
  stateFile : Option EngineState
  journal : List TradeRecord
deriving DecidableEq, Repr

/-- Fault oracle: whether each fallible I/O operation of the cycle
succeeds.  `fetchOk` covers `get_data`'s network call, `journalOk` the
CSV append in `log_to_journal`, `saveOk` the write in `save_state`. -/
structure Faults where
  fetchOk : Bool
  journalOk : Bool
  saveOk : Bool
deriving DecidableEq, Repr

/-- Where the cycle body raised, if it did. -/
inductive CycleErr where
  | fetch
  | journal
  | save
deriving DecidableEq, Repr

/-- Python's `round(x, d)`: round half to even at `d` decimal digits. -/
def roundQ (x : ℚ) (d : Nat) : ℚ :=
  let m : ℚ := (10 : ℚ) ^ d
  let y := x * m
  let f : ℤ := ⌊y⌋
  let r : ℚ := y - (f : ℚ)
  let n : ℤ :=
    if r < 1 / 2 then f
    else if 1 / 2 < r then f + 1
    else if f % 2 = 0 then f else f + 1
  (n : ℚ) / m

/-- `load_state` (`live.py` lines 19-23): default initial state when the
state file does not exist, otherwise the stored state. -/
def load_state (w : World) : EngineState :=
  w.stateFile.getD { balance := INITIAL_CAPITAL, active_trade := none, last_exit_time := none }

/-- `df['ATR'].iloc[-1]` where `ATR = (High - Low).rolling(14).mean()`
(`live.py` lines 84, 86): `none` models the NaN produced when fewer than
14 bars exist. -/
def atr14 (bars : List Bar) : Option ℚ :=
  if bars.length < 14 then none
  else some ((((bars.drop (bars.length - 14)).map (fun b => b.High - b.Low)).sum) / 14)

/-- 5-minute resample bin of a timestamp (pandas `resample('5min')`,
bins aligned to multiples of 5 minutes). -/
def binIdx (t : ℚ) : ℤ := ⌊t / 5⌋

/-- The consecutive 5-minute bins spanned by the bar window. -/
def binsOf (bars : List Bar) : List ℤ :=
  match bars with
  | [] => []
  | b0 :: rest =>
    let lo := binIdx b0.Timestamp
    let hi := binIdx (rest.getLastD b0).Timestamp
    (List.range (hi - lo + 1).toNat).map (fun i => lo + i)

/-- `.last()` of the Close series within one resample bin. -/
def lastCloseIn (bars : List Bar) (k : ℤ) : Option ℚ :=
  ((bars.filter (fun x => binIdx x.Timestamp == k)).getLast?).map Bar.Close

/-- `.ffill()`: replace a missing value by the previous present one. -/
def ffill (prev : ℚ) : List (Option ℚ) → List ℚ
  | [] => []
  | none :: rest => prev :: ffill prev rest
  | some x :: rest => x :: ffill x rest

/-- `df['Close'].resample('5min').last().ffill()` as a list of values
(the first bin always holds the first bar, so no leading gap exists). -/
def resampleFfill (bars : List Bar) : List ℚ :=
  match (binsOf bars).map (lastCloseIn bars) with
  | [] => []
  | o :: rest =>
    let x := o.getD 0
    x :: ffill x rest

/-- `ewm(span=200, adjust=False).mean()` recursion, returning the last
value: `y0 = x0`, `y_i = (1 - a) * y_(i-1) + a * x_i` with
`a = 2 / (span + 1)`. -/
def ewmAux (a y : ℚ) : List ℚ → ℚ
  | [] => y
  | x :: rest => ewmAux a ((1 - a) * y + a * x) rest

/-- `ema_val` (`live.py` line 85): resample closes to 5 minutes,
forward-fill, exponential moving average with span 200, last value. -/
def emaVal (bars : List Bar) : ℚ :=
  match resampleFfill bars with
  | [] => 0
  | x :: rest => ewmAux (2 / 201) x rest

/-- `hit_tp` (`live.py` line 61): for LONG the bar high reached the
take-profit level, for SHORT the bar low reached it. -/
def hit_tp (t : Trade) (b : Bar) : Bool :=
  match t.type with
  | Dir.LONG => decide (b.High ≥ t.tp)
  | Dir.SHORT => decide (b.Low ≤ t.tp)

/-- `hit_sl` (`live.py` line 62): for LONG the bar low reached the
stop-loss level, for SHORT the bar high reached it. -/
def hit_sl (t : Trade) (b : Bar) : Bool :=
  match t.type with
  | Dir.LONG => decide (b.Low ≤ t.sl)
  | Dir.SHORT => decide (b.High ≥ t.sl)

/-- Realized pnl at a given exit price (`live.py` line 66). -/
def trade_pnl (t : Trade) (exit_p : ℚ) : ℚ :=
  match t.type with
  | Dir.LONG => (exit_p - t.entry_price) * t.qty
  | Dir.SHORT => (t.entry_price - exit_p) * t.qty

/-- The journal row written on close (`live.py` lines 68-73). -/
def close_record (t : Trade) (now_ts exit_p pnl bal : ℚ) : TradeRecord :=
  { entry_time := t.entry_time, exit_time := now_ts, type := t.type,
    entry_price := roundQ t.entry_price 2, exit_price := roundQ exit_p 2,
    qty := roundQ t.qty 4, pnl := roundQ pnl 2, final_balance := roundQ bal 2 }

/-- The monitor branch of the cycle (`live.py` lines 59-76): evaluated
when a trade is open; on a hit, exit price is the take-profit level when
it hit (stop-loss only otherwise), balance is updated, the journal row
is appended, then the new state is saved. -/
def monitor (f : Faults) (b : Bar) (t : Trade) (bal : ℚ) (w : World) :
    World × Option CycleErr :=
  if hit_tp t b || hit_sl t b then
    let exit_p := if hit_tp t b then t.tp else t.sl
    let pnl := trade_pnl t exit_p
    if f.journalOk then
      let w1 := { w with journal := w.journal ++ [close_record t b.Timestamp exit_p pnl (bal + pnl)] }
      if f.saveOk then
        ({ w1 with stateFile := some { balance := bal + pnl, active_trade := none,
                                       last_exit_time := some b.Timestamp } }, none)
      else (w1, some CycleErr.save)
    else (w, some CycleErr.journal)
  else (w, none)

/-- The exit price picked on a hit (`live.py` line 65): the take-profit
level when it hit, the stop-loss level otherwise. -/
def exit_price (t : Trade) (b : Bar) : ℚ :=
  if hit_tp t b then t.tp else t.sl

/-- The direction rule (`live.py` line 89): LONG when the close is above
both the EMA level and the bar open, SHORT when below both, else none. -/
def direction_of (price ema op : ℚ) : Option Dir :=
  if price > ema ∧ price > op then some Dir.LONG
  else if price < ema ∧ price < op then some Dir.SHORT
  else none

/-- The trade dictionary built at entry (`live.py` lines 91-96). -/
def new_trade (st : EngineState) (b : Bar) (d : Dir) : Trade :=
  { type := d, entry_time := b.Timestamp, entry_price := b.Close,
    qty := st.balance * LEVERAGE / b.Close,
    tp := match d with
      | Dir.LONG => b.Close * (1 + TP_PCT)
      | Dir.SHORT => b.Close * (1 - TP_PCT),
    sl := match d with
      | Dir.LONG => b.Close * (1 - SL_PCT)
      | Dir.SHORT => b.Close * (1 + SL_PCT) }

/-- The entry branch of the cycle (`live.py` lines 84-98): compute
indicators, gate on the inclusive ATR band, pick a direction, and on a
direction build the trade and save the state (the open trade replaces
`active_trade`; balance and `last_exit_time` are kept). -/
def entry_eval (f : Faults) (bars : List Bar) (b : Bar) (st : EngineState) (w : World) :
    World × Option CycleErr :=
  match atr14 bars with
  | none => (w, none)
  | some atr =>
    if ATR_MIN ≤ atr ∧ atr ≤ ATR_MAX then
      match direction_of b.Close (emaVal bars) b.Open with
      | some d =>
        if f.saveOk then
          ({ w with stateFile := some { st with active_trade := some (new_trade st b d) } }, none)
        else (w, some CycleErr.save)
      | none => (w, none)
    else (w, none)

/-- The body of `run_cycle` (`live.py` lines 49-98), before the
`except` clause: load state, fetch data (empty data → return), monitor
an open trade, otherwise apply the cooldown gate and evaluate entry.
The second component records where the body raised, if it did; the
first is the world as mutated up to that point. -/
def run_cycle_body (f : Faults) (bars : List Bar) (w : World) : World × Option CycleErr :=
  let st := load_state w
  if f.fetchOk then
    match bars.getLast? with
    | none => (w, none)
    | some b =>
      match st.active_trade with
      | some t => monitor f b t st.balance w
      | none =>
        match st.last_exit_time with
        | some te =>
          if b.Timestamp < te + COOLDOWN_MINS then (w, none)
          else entry_eval f bars b st w
        | none => entry_eval f bars b st w
  else (w, some CycleErr.fetch)

/-- `run_cycle` (`live.py` lines 48-100): the catch-all `except` turns
any raised error into a log line, leaving the world as mutated so far. -/
def run_cycle (f : Faults) (bars : List Bar) (w : World) : World :=
  (run_cycle_body f bars w).1

/-- A sequence of cycles, each with its own faults and fetched bars. -/
def run_cycles (steps : List (Faults × List Bar)) (w : World) : World :=
  steps.foldl (fun w s => run_cycle s.1 s.2 w) w

/-! ### Concrete example data used by witnesses and counterexamples -/

/-- Scenario B trade: open LONG, take-profit 101.05, stop-loss 100.85. -/
def exB_trade : Trade :=
  { type := Dir.LONG, entry_time := 0, entry_price := 100.95, qty := 1, tp := 101.05, sl := 100.85 }

/-- Scenario B world: state file holds the open trade. -/
def exB_world : World :=
  { stateFile := some { balance := 1200, active_trade := some exB_trade, last_exit_time := none },
    journal := [] }

/-- Scenario B bar: high 101.06 and low 100.80 trigger both levels. -/
def exB_bar : Bar :=
  { Timestamp := 40, Open := 101, High := 101.06, Low := 100.80, Close := 100.9 }

/-- Scenario A bar window: 14 ascending bars, each with high − low = 12
(volatility 12), closes 100 except the last close 101; the last bar
falls in the second 5-minute resample bin. -/
def exA_bars : List Bar :=
  [⟨0, 99, 107, 95, 100⟩, ⟨1/5, 99, 107, 95, 100⟩, ⟨2/5, 99, 107, 95, 100⟩,
   ⟨3/5, 99, 107, 95, 100⟩, ⟨4/5, 99, 107, 95, 100⟩, ⟨1, 99, 107, 95, 100⟩,
   ⟨6/5, 99, 107, 95, 100⟩, ⟨7/5, 99, 107, 95, 100⟩, ⟨8/5, 99, 107, 95, 100⟩,
   ⟨9/5, 99, 107, 95, 100⟩, ⟨2, 99, 107, 95, 100⟩, ⟨11/5, 99, 107, 95, 100⟩,
   ⟨12/5, 99, 107, 95, 100⟩, ⟨5, 99, 107, 95, 101⟩]

/-- The latest bar of the Scenario A window. -/
def exA_bar : Bar := ⟨5, 99, 107, 95, 101⟩

/-- Scenario A world: fresh state (no state file yet). -/
def exA_world : World := { stateFile := none, journal := [] }

/-! ### Reduction lemmas for the cycle branches -/

theorem atr14_exA : atr14 exA_bars = some 12 := by
  norm_num [atr14, exA_bars]

theorem emaVal_exA : emaVal exA_bars = 20102 / 201 := by
  have hb0 : binIdx 0 = 0 := by norm_num [binIdx]
  have hb1 : binIdx (1/5) = 0 := by norm_num [binIdx]
  have hb2 : binIdx (2/5) = 0 := by norm_num [binIdx]
  have hb3 : binIdx (3/5) = 0 := by norm_num [binIdx]
  have hb4 : binIdx (4/5) = 0 := by norm_num [binIdx]
  have hb5 : binIdx 1 = 0 := by norm_num [binIdx]
  have hb6 : binIdx (6/5) = 0 := by norm_num [binIdx]
  have hb7 : binIdx (7/5) = 0 := by norm_num [binIdx]
  have hb8 : binIdx (8/5) = 0 := by norm_num [binIdx]
  have hb9 : binIdx (9/5) = 0 := by norm_num [binIdx]
  have hb10 : binIdx 2 = 0 := by norm_num [binIdx]
  have hb11 : binIdx (11/5) = 0 := by norm_num [binIdx]
  have hb12 : binIdx (12/5) = 0 := by norm_num [binIdx]
  have hb13 : binIdx 5 = 1 := by norm_num [binIdx]
  have e00 : ((0:ℤ) == 0) = true := by decide
  have e10 : ((1:ℤ) == 0) = false := by decide
  have e01 : ((0:ℤ) == 1) = false := by decide
  have e11 : ((1:ℤ) == 1) = true := by decide
  have hbins : binsOf exA_bars = [0, 1] := by
    simp only [exA_bars, binsOf, List.getLastD_cons, List.getLastD_nil, hb0, hb13]
    decide
  have hl0 : lastCloseIn exA_bars 0 = some 100 := by
    simp only [lastCloseIn, exA_bars, List.filter, hb0, hb1, hb2, hb3, hb4, hb5, hb6, hb7,
      hb8, hb9, hb10, hb11, hb12, hb13, e00, e10, e01, e11, List.getLast?_cons_cons,
      List.getLast?_singleton, Option.map_some']
  have hl1 : lastCloseIn exA_bars 1 = some 101 := by
    simp only [lastCloseIn, exA_bars, List.filter, hb0, hb1, hb2, hb3, hb4, hb5, hb6, hb7,
      hb8, hb9, hb10, hb11, hb12, hb13, e00, e10, e01, e11, List.getLast?_cons_cons,
      List.getLast?_singleton, Option.map_some']
  have hres : resampleFfill exA_bars = [100, 101] := by
    simp only [resampleFfill, hbins, List.map_cons, List.map_nil, hl0, hl1, Option.getD, ffill]
  simp only [emaVal, hres, ewmAux]
  norm_num

theorem monitor_nohit (f : Faults) (b : Bar) (t : Trade) (bal : ℚ) (w : World)
    (h : hit_tp t b = false) (h' : hit_sl t b = false) :
    monitor f b t bal w = (w, none) := by
  unfold monitor
  simp [h, h']

theorem monitor_hit_journal_fail (f : Faults) (b : Bar) (t : Trade) (bal : ℚ) (w : World)
    (hor : hit_tp t b = true ∨ hit_sl t b = true) (hj : f.journalOk = false) :
    monitor f b t bal w = (w, some CycleErr.journal) := by
  unfold monitor
  rcases hor with h | h <;> simp [h, hj]

theorem monitor_hit_save_fail (f : Faults) (b : Bar) (t : Trade) (bal : ℚ) (w : World)
    (hor : hit_tp t b = true ∨ hit_sl t b = true) (hj : f.journalOk = true)
    (hs : f.saveOk = false) :
    monitor f b t bal w =
      ({ w with journal := w.journal ++
          [close_record t b.Timestamp (if hit_tp t b then t.tp else t.sl)
            (trade_pnl t (if hit_tp t b then t.tp else t.sl))
            (bal + trade_pnl t (if hit_tp t b then t.tp else t.sl))] },
       some CycleErr.save) := by
  unfold monitor
  rcases hor with h | h <;> simp [h, hj, hs]

theorem monitor_hit_ok (f : Faults) (b : Bar) (t : Trade) (bal : ℚ) (w : World)
    (hor : hit_tp t b = true ∨ hit_sl t b = true) (hj : f.journalOk = true)
    (hs : f.saveOk = true) :
    monitor f b t bal w =
      ({ stateFile := some
           { balance := bal + trade_pnl t (if hit_tp t b then t.tp else t.sl),
             active_trade := none, last_exit_time := some b.Timestamp },
         journal := w.journal ++
          [close_record t b.Timestamp (if hit_tp t b then t.tp else t.sl)
            (trade_pnl t (if hit_tp t b then t.tp else t.sl))
            (bal + trade_pnl t (if hit_tp t b then t.tp else t.sl))] },
       none) := by
  unfold monitor
  rcases hor with h | h <;> simp [h, hj, hs]

theorem entry_eval_no_atr (f : Faults) (bars : List Bar) (b : Bar) (st : EngineState) (w : World)
    (h : atr14 bars = none) :
    entry_eval f bars b st w = (w, none) := by
  unfold entry_eval
  simp [h]

theorem entry_eval_out_of_band (f : Faults) (bars : List Bar) (b : Bar) (st : EngineState)
    (w : World) (a : ℚ) (h : atr14 bars = some a) (hband : ¬(ATR_MIN ≤ a ∧ a ≤ ATR_MAX)) :
    entry_eval f bars b st w = (w, none) := by
  unfold entry_eval
  simp [h, hband]

theorem entry_eval_no_dir (f : Faults) (bars : List Bar) (b : Bar) (st : EngineState)
    (w : World) (a : ℚ) (h : atr14 bars = some a) (hband : ATR_MIN ≤ a ∧ a ≤ ATR_MAX)
    (hdir : direction_of b.Close (emaVal bars) b.Open = none) :
    entry_eval f bars b st w = (w, none) := by
  unfold entry_eval
  simp [h, hband, hdir]

theorem entry_eval_dir_save_fail (f : Faults) (bars : List Bar) (b : Bar) (st : EngineState)
    (w : World) (a : ℚ) (d : Dir) (h : atr14 bars = some a)
    (hband : ATR_MIN ≤ a ∧ a ≤ ATR_MAX)
    (hdir : direction_of b.Close (emaVal bars) b.Open = some d) (hs : f.saveOk = false) :
    entry_eval f bars b st w = (w, some CycleErr.save) := by
  unfold entry_eval
  simp [h, hband, hdir, hs]

theorem entry_eval_dir_ok (f : Faults) (bars : List Bar) (b : Bar) (st : EngineState)
    (w : World) (a : ℚ) (d : Dir) (h : atr14 bars = some a)
    (hband : ATR_MIN ≤ a ∧ a ≤ ATR_MAX)
    (hdir : direction_of b.Close (emaVal bars) b.Open = some d) (hs : f.saveOk = true) :
    entry_eval f bars b st w =
      ({ w with stateFile := some { st with active_trade := some (new_trade st b d) } },
       none) := by
  unfold entry_eval
  simp [h, hband, hdir, hs]

theorem body_fetch_fail (f : Faults) (bars : List Bar) (w : World) (hf : f.fetchOk = false) :
    run_cycle_body f bars w = (w, some CycleErr.fetch) := by
  unfold run_cycle_body
  simp [hf]

theorem body_no_bars (f : Faults) (bars : List Bar) (w : World) (hf : f.fetchOk = true)
    (hb : bars.getLast? = none) :
    run_cycle_body f bars w = (w, none) := by
  unfold run_cycle_body
  simp [hf, hb]

theorem body_open (f : Faults) (bars : List Bar) (b : Bar) (w : World) (t : Trade)
    (hf : f.fetchOk = true) (hb : bars.getLast? = some b)
    (ht : (load_state w).active_trade = some t) :
    run_cycle_body f bars w = monitor f b t (load_state w).balance w := by
  unfold run_cycle_body
  simp [hf, hb, ht]

theorem body_cooldown_block (f : Faults) (bars : List Bar) (b : Bar) (w : World) (te : ℚ)
    (hf : f.fetchOk = true) (hb : bars.getLast? = some b)
    (ht : (load_state w).active_trade = none)
    (hte : (load_state w).last_exit_time = some te)
    (hc : b.Timestamp < te + COOLDOWN_MINS) :
    run_cycle_body f bars w = (w, none) := by
  unfold run_cycle_body
  simp [hf, hb, ht, hte, hc]

theorem body_entry (f : Faults) (bars : List Bar) (b : Bar) (w : World)
    (hf : f.fetchOk = true) (hb : bars.getLast? = some b)
    (ht : (load_state w).active_trade = none)
    (hcool : ∀ te, (load_state w).last_exit_time = some te → te + COOLDOWN_MINS ≤ b.Timestamp) :
    run_cycle_body f bars w = entry_eval f bars b (load_state w) w := by
  unfold run_cycle_body
  cases hte : (load_state w).last_exit_time with
  | none => simp [hf, hb, ht, hte]
  | some te =>
    have : ¬ b.Timestamp < te + COOLDOWN_MINS := not_lt.mpr (hcool te hte)
    simp [hf, hb, ht, hte, this]

/-! ### Shape lemmas: every outcome a cycle can have -/

theorem load_state_set_journal (w : World) (j : List TradeRecord) :
    load_state { w with journal := j } = load_state w := rfl

theorem load_state_mk_some (st : EngineState) (j : List TradeRecord) :
    load_state { stateFile := some st, journal := j } = st := rfl

theorem entry_eval_shape (f : Faults) (bars : List Bar) (b : Bar) (st : EngineState)
    (w : World) :
    (entry_eval f bars b st w).1 = w ∨
    ∃ d, (entry_eval f bars b st w).1 =
      { w with stateFile := some { st with active_trade := some (new_trade st b d) } } := by
  cases hatr : atr14 bars with
  | none => exact Or.inl (by rw [entry_eval_no_atr f bars b st w hatr])
  | some a =>
    by_cases hband : ATR_MIN ≤ a ∧ a ≤ ATR_MAX
    · cases hdir : direction_of b.Close (emaVal bars) b.Open with
      | none => exact Or.inl (by rw [entry_eval_no_dir f bars b st w a hatr hband hdir])
      | some d =>
        cases hs : f.saveOk
        · exact Or.inl (by rw [entry_eval_dir_save_fail f bars b st w a d hatr hband hdir hs])
        · exact Or.inr ⟨d, by rw [entry_eval_dir_ok f bars b st w a d hatr hband hdir hs]⟩
    · exact Or.inl (by rw [entry_eval_out_of_band f bars b st w a hatr hband])

theorem run_cycle_shape (f : Faults) (bars : List Bar) (w : World) :
    run_cycle f bars w = w ∨
    (∃ t b, (load_state w).active_trade = some t ∧ bars.getLast? = some b ∧
      (hit_tp t b = true ∨ hit_sl t b = true) ∧
      (run_cycle f bars w =
         { w with journal := w.journal ++
             [close_record t b.Timestamp (exit_price t b) (trade_pnl t (exit_price t b))
               ((load_state w).balance + trade_pnl t (exit_price t b))] } ∨
       run_cycle f bars w =
         { stateFile := some
             { balance := (load_state w).balance + trade_pnl t (exit_price t b),
               active_trade := none, last_exit_time := some b.Timestamp },
           journal := w.journal ++
             [close_record t b.Timestamp (exit_price t b) (trade_pnl t (exit_price t b))
               ((load_state w).balance + trade_pnl t (exit_price t b))] })) ∨
    (∃ b d, (load_state w).active_trade = none ∧
      run_cycle f bars w =
        { w with
          stateFile := some { (load_state w) with active_trade := some (new_trade (load_state w) b d) } }) := by
  cases hf : f.fetchOk
  · exact Or.inl (by unfold run_cycle; rw [body_fetch_fail f bars w hf])
  · cases hb : bars.getLast? with
    | none => exact Or.inl (by unfold run_cycle; rw [body_no_bars f bars w hf hb])
    | some b =>
      cases ht : (load_state w).active_trade with
      | some t =>
        have hbody : run_cycle f bars w = (monitor f b t (load_state w).balance w).1 := by
          unfold run_cycle
          rw [body_open f bars b w t hf hb ht]
        by_cases hor : hit_tp t b = true ∨ hit_sl t b = true
        · cases hj : f.journalOk
          · exact Or.inl (by
              rw [hbody, monitor_hit_journal_fail f b t (load_state w).balance w hor hj])
          · cases hs : f.saveOk
            · refine Or.inr (Or.inl ⟨t, b, rfl, rfl, hor, Or.inl ?_⟩)
              rw [hbody, monitor_hit_save_fail f b t (load_state w).balance w hor hj hs]
              simp [exit_price]
            · refine Or.inr (Or.inl ⟨t, b, rfl, rfl, hor, Or.inr ?_⟩)
              rw [hbody, monitor_hit_ok f b t (load_state w).balance w hor hj hs]
              simp [exit_price]
        · obtain ⟨h1, h2⟩ := not_or.mp hor
          rw [Bool.not_eq_true] at h1 h2
          exact Or.inl (by rw [hbody, monitor_nohit f b t (load_state w).balance w h1 h2])
      | none =>
        have hentry : run_cycle f bars w = w ∨
            run_cycle f bars w = (entry_eval f bars b (load_state w) w).1 := by
          cases hte : (load_state w).last_exit_time with
          | none =>
            refine Or.inr ?_
            unfold run_cycle
            rw [body_entry f bars b w hf hb ht (fun te h => by rw [hte] at h; cases h)]
          | some te =>
            by_cases hc : b.Timestamp < te + COOLDOWN_MINS
            · exact Or.inl (by unfold run_cycle; rw [body_cooldown_block f bars b w te hf hb ht hte hc])
            · refine Or.inr ?_
              unfold run_cycle
              rw [body_entry f bars b w hf hb ht
                (fun te' h => by rw [hte] at h; cases h; exact not_lt.mp hc)]
        rcases hentry with h | h
        · exact Or.inl h
        · rcases entry_eval_shape f bars b (load_state w) w with h2 | ⟨d, h2⟩
          · exact Or.inl (h.trans h2)
          · exact Or.inr (Or.inr ⟨b, d, rfl, h.trans h2⟩)

theorem run_cycle_journal_extends (f : Faults) (bars : List Bar) (w : World) :
    ∃ ext, (run_cycle f bars w).journal = w.journal ++ ext := by
  rcases run_cycle_shape f bars w with h | ⟨t, b, _, _, _, h | h⟩ | ⟨b, d, _, h⟩
  · exact ⟨[], by rw [h]; simp⟩
  · exact ⟨_, by rw [h]⟩
  · exact ⟨_, by rw [h]⟩
  · exact ⟨[], by rw [h]; simp⟩

theorem run_cycle_journal_eq_balance_eq (f : Faults) (bars : List Bar) (w : World)
    (h : (run_cycle f bars w).journal = w.journal) :
    (load_state (run_cycle f bars w)).balance = (load_state w).balance := by
  rcases run_cycle_shape f bars w with hs | ⟨t, b, _, _, _, hs | hs⟩ | ⟨b, d, _, hs⟩
  · rw [hs]
  · rw [hs] at h
    simp at h
  · rw [hs] at h
    simp at h
  · rw [hs, load_state]
    cases hsf : w.stateFile <;> simp [hsf, load_state]

theorem run_cycles_journal_extends (steps : List (Faults × List Bar)) (w : World) :
    ∃ ext, (run_cycles steps w).journal = w.journal ++ ext := by
  induction steps generalizing w with
  | nil => exact ⟨[], by simp [run_cycles]⟩
  | cons s rest ih =>
    obtain ⟨e1, h1⟩ := run_cycle_journal_extends s.1 s.2 w
    obtain ⟨e2, h2⟩ := ih (run_cycle s.1 s.2 w)
    exact ⟨e1 ++ e2, by
      show (run_cycles rest (run_cycle s.1 s.2 w)).journal = _
      rw [h2, h1, List.append_assoc]⟩

theorem run_cycles_journal_eq_balance_eq (steps : List (Faults × List Bar)) (w : World)
    (h : (run_cycles steps w).journal = w.journal) :
    (load_state (run_cycles steps w)).balance = (load_state w).balance := by
  induction steps generalizing w with
  | nil => rfl
  | cons s rest ih =>
    obtain ⟨e1, h1⟩ := run_cycle_journal_extends s.1 s.2 w
    obtain ⟨e2, h2⟩ := run_cycles_journal_extends rest (run_cycle s.1 s.2 w)
    have hrun : (run_cycles (s :: rest) w).journal =
        w.journal ++ (e1 ++ e2) := by
      show (run_cycles rest (run_cycle s.1 s.2 w)).journal = _
      rw [h2, h1, List.append_assoc]
    rw [hrun] at h
    have he : e1 ++ e2 = [] := by
      have := congrArg List.length h
      simp at this
      simpa using this
    have he1 : e1 = [] := (List.append_eq_nil.mp he).1
    have he2 : e2 = [] := (List.append_eq_nil.mp he).2
    have hj1 : (run_cycle s.1 s.2 w).journal = w.journal := by rw [h1, he1, List.append_nil]
    have hj2 : (run_cycles rest (run_cycle s.1 s.2 w)).journal =
        (run_cycle s.1 s.2 w).journal := by rw [h2, he2, List.append_nil, hj1]
    have hb1 := run_cycle_journal_eq_balance_eq s.1 s.2 w hj1
    have hb2 := ih (run_cycle s.1 s.2 w) hj2
    calc (load_state (run_cycles (s :: rest) w)).balance
        = (load_state (run_cycles rest (run_cycle s.1 s.2 w))).balance := rfl
      _ = (load_state (run_cycle s.1 s.2 w)).balance := hb2
      _ = (load_state w).balance := hb1

/-- A flat cycle whose entry evaluation would leave the world unchanged
is a no-op, whatever the cooldown state and the fetched data. -/
theorem flat_cycle_noop_of_entry_noop (f : Faults) (bars : List Bar) (w : World)
    (hflat : (load_state w).active_trade = none)
    (h : ∀ b, bars.getLast? = some b → (entry_eval f bars b (load_state w) w).1 = w) :
    run_cycle f bars w = w := by
  cases hf : f.fetchOk
  · unfold run_cycle
    rw [body_fetch_fail f bars w hf]
  · cases hb : bars.getLast? with
    | none =>
      unfold run_cycle
      rw [body_no_bars f bars w hf hb]
    | some b =>
      cases hte : (load_state w).last_exit_time with
      | some te =>
        by_cases hc : b.Timestamp < te + COOLDOWN_MINS
        · unfold run_cycle
          rw [body_cooldown_block f bars b w te hf hb hflat hte hc]
        · unfold run_cycle
          rw [body_entry f bars b w hf hb hflat
            (fun te' h' => by rw [hte] at h'; cases h'; exact not_lt.mp hc)]
          exact h b hb
      | none =>
        unfold run_cycle
        rw [body_entry f bars b w hf hb hflat (fun te' h' => by rw [hte] at h'; cases h')]
        exact h b hb

/-! ### Theorems -/

/-- C1: at most one position is open at any time: a cycle that begins
with a position open either keeps exactly that position or ends flat —
entry logic is never evaluated, so no position is opened in a cycle that
begins with one open (in particular none is opened in the cycle that
closes one). -/
theorem single_position_invariant (f : Faults) (bars : List Bar) (w : World) (t : Trade)
    (h : (load_state w).active_trade = some t) :
    (load_state (run_cycle f bars w)).active_trade = some t ∨
    (load_state (run_cycle f bars w)).active_trade = none := by
  unfold run_cycle run_cycle_body
  cases hf : f.fetchOk
  · simp [h]
  · cases hb : bars.getLast? with
    | none => simp [h]
    | some b =>
      simp only [h, monitor]
      by_cases hhit : (hit_tp t b || hit_sl t b) = true
      · simp only [hhit, if_true]
        cases hj : f.journalOk
        · simp [h]
        · cases hs : f.saveOk
          · simp [load_state, h]
            exact Or.inl (by
              have : (load_state w).active_trade = some t := h
              simpa [load_state] using this)
          · simp [load_state]
      · simp only [Bool.not_eq_true] at hhit
        simp [hhit, h]

/-- C1 witness. -/
theorem single_position_invariant_witness :
    (load_state (run_cycle ⟨true, true, true⟩ []
        ⟨some ⟨1200, some ⟨Dir.LONG, 0, 100, 1, 101, 99⟩, none⟩, []⟩)).active_trade =
      some ⟨Dir.LONG, 0, 100, 1, 101, 99⟩ ∨
    (load_state (run_cycle ⟨true, true, true⟩ []
        ⟨some ⟨1200, some ⟨Dir.LONG, 0, 100, 1, 101, 99⟩, none⟩, []⟩)).active_trade = none :=
  single_position_invariant ⟨true, true, true⟩ []
    ⟨some ⟨1200, some ⟨Dir.LONG, 0, 100, 1, 101, 99⟩, none⟩, []⟩
    ⟨Dir.LONG, 0, 100, 1, 101, 99⟩ rfl

/-- C2: when a position is open and on the latest bar both the
take-profit and the stop-loss conditions trigger, the position is closed
at the take-profit level: the balance is updated with the pnl computed
from `t.tp` (not `t.sl`) and the journal row records `t.tp`. -/
theorem tp_wins_tie (f : Faults) (bars : List Bar) (b : Bar) (w : World) (t : Trade)
    (hb : bars.getLast? = some b)
    (ht : (load_state w).active_trade = some t)
    (hf : f.fetchOk = true) (hj : f.journalOk = true) (hs : f.saveOk = true)
    (htp : hit_tp t b = true) (hsl : hit_sl t b = true) :
    load_state (run_cycle f bars w) =
      { balance := (load_state w).balance + trade_pnl t t.tp,
        active_trade := none, last_exit_time := some b.Timestamp } ∧
    (run_cycle f bars w).journal =
      w.journal ++ [close_record t b.Timestamp t.tp (trade_pnl t t.tp)
        ((load_state w).balance + trade_pnl t t.tp)] := by
  unfold run_cycle run_cycle_body monitor
  simp only [load_state] at ht
  simp [load_state, hb, ht, hf, hj, hs, htp, hsl]

/-- C2 witness: Scenario B evaluated concretely. -/
theorem tp_wins_tie_witness :
    load_state (run_cycle ⟨true, true, true⟩ [exB_bar] exB_world) =
      { balance := (load_state exB_world).balance + trade_pnl exB_trade exB_trade.tp,
        active_trade := none, last_exit_time := some exB_bar.Timestamp } ∧
    (run_cycle ⟨true, true, true⟩ [exB_bar] exB_world).journal =
      exB_world.journal ++ [close_record exB_trade exB_bar.Timestamp exB_trade.tp
        (trade_pnl exB_trade exB_trade.tp)
        ((load_state exB_world).balance + trade_pnl exB_trade exB_trade.tp)] :=
  tp_wins_tie ⟨true, true, true⟩ [exB_bar] exB_bar exB_world exB_trade rfl rfl rfl rfl rfl
    (by norm_num [hit_tp, exB_trade, exB_bar]) (by norm_num [hit_sl, exB_trade, exB_bar])

/-- C3: while `last_exit_time` is set and the latest bar is strictly less
than the 30-minute cooldown past it, a flat cycle is a no-op (no entry
transition can occur); once the elapsed time reaches the cooldown, the
gate no longer blocks: the cycle behaves exactly as the entry
evaluation. -/
theorem cooldown_invariant (f : Faults) (bars : List Bar) (b : Bar) (w : World) (te : ℚ)
    (hb : bars.getLast? = some b)
    (hflat : (load_state w).active_trade = none)
    (hte : (load_state w).last_exit_time = some te)
    (hf : f.fetchOk = true) :
    (b.Timestamp < te + COOLDOWN_MINS → run_cycle f bars w = w) ∧
    (te + COOLDOWN_MINS ≤ b.Timestamp →
      run_cycle f bars w = (entry_eval f bars b (load_state w) w).1) := by
  constructor
  · intro hc
    unfold run_cycle
    rw [body_cooldown_block f bars b w te hf hb hflat hte hc]
  · intro hc
    unfold run_cycle
    rw [body_entry f bars b w hf hb hflat (fun te' h => by rw [hte] at h; cases h; exact hc)]

/-- C3 world: flat, last exit at time 0. -/
def exC3_world : World :=
  { stateFile := some { balance := 1200, active_trade := none, last_exit_time := some 0 },
    journal := [] }

/-- C3 bar: 10 minutes after the exit, within the 30-minute cooldown. -/
def exC3_bar : Bar :=
  { Timestamp := 10, Open := 100, High := 100, Low := 100, Close := 100 }

/-- C3 witness: 10 minutes after the last exit — inside the 30-minute
cooldown — the flat cycle is a no-op. -/
theorem cooldown_invariant_witness :
    run_cycle ⟨true, true, true⟩ [exC3_bar] exC3_world = exC3_world :=
  (cooldown_invariant ⟨true, true, true⟩ [exC3_bar] exC3_bar exC3_world 0 rfl rfl rfl rfl).1
    (by norm_num [exC3_bar, COOLDOWN_MINS])

/-- C4: exits are decided from the latest bar's high and low only — for
LONG the take-profit triggers iff `high ≥ tp` and the stop-loss iff
`low ≤ sl`, for SHORT the take-profit triggers iff `low ≤ tp` and the
stop-loss iff `high ≥ sl` — no trigger means no exit, and on a trigger
the exit price is exactly the take-profit or the stop-loss level (never
the bar close): balance and journal record use that level. -/
theorem exit_trigger_characterisation (f : Faults) (bars : List Bar) (b : Bar) (w : World)
    (t : Trade)
    (hb : bars.getLast? = some b)
    (ht : (load_state w).active_trade = some t)
    (hf : f.fetchOk = true) (hj : f.journalOk = true) (hs : f.saveOk = true) :
    (hit_tp t b = true ↔
      ((t.type = Dir.LONG ∧ b.High ≥ t.tp) ∨ (t.type = Dir.SHORT ∧ b.Low ≤ t.tp))) ∧
    (hit_sl t b = true ↔
      ((t.type = Dir.LONG ∧ b.Low ≤ t.sl) ∨ (t.type = Dir.SHORT ∧ b.High ≥ t.sl))) ∧
    (hit_tp t b = false ∧ hit_sl t b = false → run_cycle f bars w = w) ∧
    (hit_tp t b = true ∨ hit_sl t b = true →
      (exit_price t b = t.tp ∨ exit_price t b = t.sl) ∧
      load_state (run_cycle f bars w) =
        { balance := (load_state w).balance + trade_pnl t (exit_price t b),
          active_trade := none, last_exit_time := some b.Timestamp } ∧
      (run_cycle f bars w).journal =
        w.journal ++ [close_record t b.Timestamp (exit_price t b)
          (trade_pnl t (exit_price t b))
          ((load_state w).balance + trade_pnl t (exit_price t b))]) := by
  refine ⟨?_, ?_, ?_, ?_⟩
  · cases htyp : t.type <;> simp [hit_tp, htyp, ge_iff_le]
  · cases htyp : t.type <;> simp [hit_sl, htyp, ge_iff_le]
  · rintro ⟨h1, h2⟩
    unfold run_cycle
    rw [body_open f bars b w t hf hb ht, monitor_nohit f b t (load_state w).balance w h1 h2]
  · intro hor
    refine ⟨?_, ?_, ?_⟩
    · unfold exit_price
      by_cases h : hit_tp t b = true <;> simp [h]
    · unfold run_cycle
      rw [body_open f bars b w t hf hb ht, monitor_hit_ok f b t (load_state w).balance w hor hj hs]
      simp [exit_price, load_state]
    · unfold run_cycle
      rw [body_open f bars b w t hf hb ht, monitor_hit_ok f b t (load_state w).balance w hor hj hs]
      simp [exit_price]

/-- C4 trade: open LONG with take-profit 101, stop-loss 99. -/
def exC4_trade : Trade :=
  { type := Dir.LONG, entry_time := 0, entry_price := 100, qty := 2, tp := 101, sl := 99 }

/-- C4 world: state file holds the open trade. -/
def exC4_world : World :=
  { stateFile := some { balance := 1000, active_trade := some exC4_trade, last_exit_time := none },
    journal := [] }

/-- C4 bar: the high reaches the take-profit, the low stays above the
stop-loss. -/
def exC4_bar : Bar :=
  { Timestamp := 5, Open := 100, High := 102, Low := 100, Close := 101.5 }

/-- C4 witness: the take-profit triggers on the concrete bar, and the
exit settles at one of the two levels with the matching balance update
and journal row. -/
theorem exit_trigger_characterisation_witness :
    (exit_price exC4_trade exC4_bar = exC4_trade.tp ∨
      exit_price exC4_trade exC4_bar = exC4_trade.sl) ∧
    load_state (run_cycle ⟨true, true, true⟩ [exC4_bar] exC4_world) =
      { balance := (load_state exC4_world).balance +
          trade_pnl exC4_trade (exit_price exC4_trade exC4_bar),
        active_trade := none, last_exit_time := some exC4_bar.Timestamp } ∧
    (run_cycle ⟨true, true, true⟩ [exC4_bar] exC4_world).journal =
      exC4_world.journal ++ [close_record exC4_trade exC4_bar.Timestamp
        (exit_price exC4_trade exC4_bar)
        (trade_pnl exC4_trade (exit_price exC4_trade exC4_bar))
        ((load_state exC4_world).balance +
          trade_pnl exC4_trade (exit_price exC4_trade exC4_bar))] :=
  (exit_trigger_characterisation ⟨true, true, true⟩ [exC4_bar] exC4_bar exC4_world exC4_trade
    rfl rfl rfl rfl rfl).2.2.2
    (Or.inl (by norm_num [hit_tp, exC4_trade, exC4_bar]))

/-- C5: the balance changes only on a close event, and then by exactly
the realized pnl `(exit_price − entry_price) × quantity` for LONG and
`(entry_price − exit_price) × quantity` for SHORT (`trade_pnl`) at an
exit price that is the take-profit or the stop-loss level; a cycle that
appends no journal row leaves the balance unchanged, and so does any
sequence of cycles that appends no journal row. -/
theorem balance_changes_only_on_close (f : Faults) (bars : List Bar) (w : World)
    (steps : List (Faults × List Bar)) :
    ((run_cycle f bars w).journal = w.journal →
      (load_state (run_cycle f bars w)).balance = (load_state w).balance) ∧
    ((load_state (run_cycle f bars w)).balance ≠ (load_state w).balance →
      ∃ t b, (load_state w).active_trade = some t ∧ bars.getLast? = some b ∧
        (exit_price t b = t.tp ∨ exit_price t b = t.sl) ∧
        (load_state (run_cycle f bars w)).balance =
          (load_state w).balance + trade_pnl t (exit_price t b) ∧
        (run_cycle f bars w).journal ≠ w.journal) ∧
    ((run_cycles steps w).journal = w.journal →
      (load_state (run_cycles steps w)).balance = (load_state w).balance) := by
  refine ⟨run_cycle_journal_eq_balance_eq f bars w, ?_,
    run_cycles_journal_eq_balance_eq steps w⟩
  intro hne
  rcases run_cycle_shape f bars w with hs | ⟨t, b, ht, hb, hor, hs | hs⟩ | ⟨b, d, ht, hs⟩
  · exact absurd (by rw [hs]) hne
  · exact absurd (by rw [hs, load_state_set_journal]) hne
  · refine ⟨t, b, ht, hb, ?_, ?_, ?_⟩
    · unfold exit_price
      by_cases h : hit_tp t b = true <;> simp [h]
    · rw [hs, load_state_mk_some]
    · rw [hs]
      intro hj
      have := congrArg List.length hj
      simp at this
  · refine absurd ?_ hne
    rw [hs]
    rfl

/-- C5 witness: an empty-data cycle appends nothing and keeps the
balance. -/
theorem balance_changes_only_on_close_witness :
    (load_state (run_cycle ⟨true, true, true⟩ [] ⟨none, []⟩)).balance =
      (load_state (⟨none, []⟩ : World)).balance :=
  (balance_changes_only_on_close ⟨true, true, true⟩ [] ⟨none, []⟩ []).1 rfl

/-- C6: when flat with cooldown elapsed and the volatility gate passed,
a LONG position is opened iff the close exceeds both the trend level and
the bar open, a SHORT iff it is below both, and otherwise no entry
occurs; the opened position enters at the bar close with quantity
`balance × leverage / entry_price`, and its take-profit sits above and
stop-loss below the entry for LONG, reversed for SHORT. -/
theorem entry_rule (f : Faults) (bars : List Bar) (b : Bar) (w : World) (a : ℚ)
    (hb : bars.getLast? = some b)
    (hflat : (load_state w).active_trade = none)
    (hcool : ∀ te, (load_state w).last_exit_time = some te → te + COOLDOWN_MINS ≤ b.Timestamp)
    (hf : f.fetchOk = true) (hs : f.saveOk = true)
    (hatr : atr14 bars = some a) (hband : ATR_MIN ≤ a ∧ a ≤ ATR_MAX) :
    (b.Close > emaVal bars ∧ b.Close > b.Open →
      load_state (run_cycle f bars w) =
        { (load_state w) with active_trade := some (new_trade (load_state w) b Dir.LONG) }) ∧
    (b.Close < emaVal bars ∧ b.Close < b.Open →
      load_state (run_cycle f bars w) =
        { (load_state w) with active_trade := some (new_trade (load_state w) b Dir.SHORT) }) ∧
    (¬(b.Close > emaVal bars ∧ b.Close > b.Open) ∧
        ¬(b.Close < emaVal bars ∧ b.Close < b.Open) →
      run_cycle f bars w = w) ∧
    ((new_trade (load_state w) b Dir.LONG).entry_price = b.Close ∧
      (new_trade (load_state w) b Dir.SHORT).entry_price = b.Close ∧
      (new_trade (load_state w) b Dir.LONG).qty = (load_state w).balance * LEVERAGE / b.Close ∧
      (new_trade (load_state w) b Dir.SHORT).qty = (load_state w).balance * LEVERAGE / b.Close) ∧
    (0 < b.Close →
      (new_trade (load_state w) b Dir.LONG).tp > b.Close ∧
      (new_trade (load_state w) b Dir.LONG).sl < b.Close ∧
      (new_trade (load_state w) b Dir.SHORT).tp < b.Close ∧
      (new_trade (load_state w) b Dir.SHORT).sl > b.Close) := by
  have hbody : run_cycle f bars w = (entry_eval f bars b (load_state w) w).1 := by
    unfold run_cycle
    rw [body_entry f bars b w hf hb hflat hcool]
  refine ⟨?_, ?_, ?_, ⟨rfl, rfl, rfl, rfl⟩, ?_⟩
  · intro hL
    have hdir : direction_of b.Close (emaVal bars) b.Open = some Dir.LONG := by
      unfold direction_of
      rw [if_pos hL]
    rw [hbody, entry_eval_dir_ok f bars b (load_state w) w a Dir.LONG hatr hband hdir hs]
    rfl
  · intro hS
    have hnL : ¬(b.Close > emaVal bars ∧ b.Close > b.Open) := by
      rintro ⟨h1, h2⟩
      exact absurd hS.1 (not_lt.mpr h1.le)
    have hdir : direction_of b.Close (emaVal bars) b.Open = some Dir.SHORT := by
      unfold direction_of
      rw [if_neg hnL, if_pos hS]
    rw [hbody, entry_eval_dir_ok f bars b (load_state w) w a Dir.SHORT hatr hband hdir hs]
    rfl
  · rintro ⟨hnL, hnS⟩
    have hdir : direction_of b.Close (emaVal bars) b.Open = none := by
      unfold direction_of
      rw [if_neg hnL, if_neg hnS]
    rw [hbody, entry_eval_no_dir f bars b (load_state w) w a hatr hband hdir]
  · intro hpos
    refine ⟨?_, ?_, ?_, ?_⟩ <;>
      simp only [new_trade, TP_PCT, SL_PCT] <;> nlinarith [hpos]

/-- C6 witness: Scenario A — flat fresh state, volatility 12 within
[8, 18], close 101 above the trend level 20102/201 and above the bar
open 99, so a LONG is opened at 101. -/
theorem entry_rule_witness :
    load_state (run_cycle ⟨true, true, true⟩ exA_bars exA_world) =
      { (load_state exA_world) with
        active_trade := some (new_trade (load_state exA_world) exA_bar Dir.LONG) } :=
  (entry_rule ⟨true, true, true⟩ exA_bars exA_bar exA_world 12 rfl rfl
      (fun te h => nomatch h) rfl rfl atr14_exA (by norm_num [ATR_MIN, ATR_MAX])).1
    (by rw [emaVal_exA]; exact ⟨by norm_num [exA_bar], by norm_num [exA_bar]⟩)

/-- C7: the volatility signal is the rolling mean of (high − low) over
the last 14 bars, undefined when fewer than 14 bars exist; a flat cycle
performs no entry (no state change at all) when the signal is undefined
or falls outside the inclusive band [ATR_MIN, ATR_MAX]. -/
theorem volatility_gate (f : Faults) (bars : List Bar) (w : World)
    (hflat : (load_state w).active_trade = none) :
    (bars.length < 14 → atr14 bars = none) ∧
    (atr14 bars = none → run_cycle f bars w = w) ∧
    (∀ a, atr14 bars = some a →
      a = ((bars.drop (bars.length - 14)).map (fun x => x.High - x.Low)).sum / 14 ∧
      (¬(ATR_MIN ≤ a ∧ a ≤ ATR_MAX) → run_cycle f bars w = w)) := by
  refine ⟨?_, ?_, ?_⟩
  · intro h
    unfold atr14
    rw [if_pos h]
  · intro hnone
    apply flat_cycle_noop_of_entry_noop f bars w hflat
    intro b hb
    rw [entry_eval_no_atr f bars b (load_state w) w hnone]
  · intro a ha
    constructor
    · unfold atr14 at ha
      by_cases h : bars.length < 14
      · rw [if_pos h] at ha
        cases ha
      · rw [if_neg h] at ha
        exact (Option.some.inj ha).symm
    · intro hband
      apply flat_cycle_noop_of_entry_noop f bars w hflat
      intro b hb
      rw [entry_eval_out_of_band f bars b (load_state w) w a ha hband]

/-- Scenario C bar window: 14 bars with high − low = 25, volatility 25
outside the band [8, 18], direction conditions met on the last bar. -/
def exC7_bars : List Bar :=
  [⟨0, 99, 120, 95, 100⟩, ⟨1, 99, 120, 95, 100⟩, ⟨2, 99, 120, 95, 100⟩, ⟨3, 99, 120, 95, 100⟩,
   ⟨4, 99, 120, 95, 100⟩, ⟨5, 99, 120, 95, 100⟩, ⟨6, 99, 120, 95, 100⟩, ⟨7, 99, 120, 95, 100⟩,
   ⟨8, 99, 120, 95, 100⟩, ⟨9, 99, 120, 95, 100⟩, ⟨10, 99, 120, 95, 100⟩, ⟨11, 99, 120, 95, 100⟩,
   ⟨12, 99, 120, 95, 100⟩, ⟨13, 99, 120, 95, 101⟩]

/-- Scenario C world: flat state. -/
def exC7_world : World :=
  { stateFile := some { balance := 1200, active_trade := none, last_exit_time := none },
    journal := [] }

/-- C7 witness: Scenario C — volatility 25 is outside the band, so the
cycle is a no-op. -/
theorem volatility_gate_witness :
    atr14 exC7_bars = some 25 ∧
    run_cycle ⟨true, true, true⟩ exC7_bars exC7_world = exC7_world :=
  ⟨by norm_num [atr14, exC7_bars],
   ((volatility_gate ⟨true, true, true⟩ exC7_bars exC7_world rfl).2.2 25
      (by norm_num [atr14, exC7_bars])).2 (by norm_num [ATR_MIN, ATR_MAX])⟩

/-- C8 data: an open LONG trade whose take-profit the next bar hits. -/
def exC8_trade : Trade :=
  { type := Dir.LONG, entry_time := 0, entry_price := 100, qty := 1, tp := 101, sl := 90 }

/-- C8 world: state file holds the open trade, journal empty. -/
def exC8_world : World :=
  { stateFile := some { balance := 1000, active_trade := some exC8_trade, last_exit_time := none },
    journal := [] }

/-- C8 bar: high 102 reaches the take-profit 101. -/
def exC8_bar : Bar := { Timestamp := 7, Open := 100, High := 102, Low := 99, Close := 101.5 }

/-- C8 counterexample: with the state save raising after a successful
ledger append, the cycle aborts with a save error yet the world has
changed (a journal row was appended) — the aborted cycle is not a
no-op on persisted state. -/
theorem aborted_cycle_not_noop :
    (run_cycle_body ⟨true, true, false⟩ [exC8_bar] exC8_world).2 = some CycleErr.save ∧
    run_cycle ⟨true, true, false⟩ [exC8_bar] exC8_world ≠ exC8_world := by
  have hor : hit_tp exC8_trade exC8_bar = true ∨ hit_sl exC8_trade exC8_bar = true :=
    Or.inl (by norm_num [hit_tp, exC8_trade, exC8_bar])
  have hbody := body_open ⟨true, true, false⟩ [exC8_bar] exC8_bar exC8_world exC8_trade rfl rfl rfl
  have hmon := monitor_hit_save_fail ⟨true, true, false⟩ exC8_bar exC8_trade
    (load_state exC8_world).balance exC8_world hor rfl rfl
  constructor
  · rw [hbody, hmon]
  · unfold run_cycle
    rw [hbody, hmon]
    intro hcontra
    have := congrArg (fun x => x.journal.length) hcontra
    simp [exC8_world] at this

/-- C8 amended: every exception is caught at the cycle boundary —
`run_cycle` always returns the world the body produced, whatever error
the body raised — and a cycle aborted by a fetch or a ledger-append
failure has mutated nothing; only a state-save failure can leave a
partial effect (the already-appended ledger row). -/
theorem cycle_error_containment (f : Faults) (bars : List Bar) (w : World) :
    run_cycle f bars w = (run_cycle_body f bars w).1 ∧
    (∀ e, (run_cycle_body f bars w).2 = some e → e ≠ CycleErr.save →
      run_cycle f bars w = w) := by
  refine ⟨rfl, ?_⟩
  intro e he hne
  unfold run_cycle
  cases hf : f.fetchOk
  · rw [body_fetch_fail f bars w hf]
  · cases hb : bars.getLast? with
    | none => rw [body_no_bars f bars w hf hb]
    | some b =>
      cases ht : (load_state w).active_trade with
      | some t =>
        rw [body_open f bars b w t hf hb ht] at he ⊢
        by_cases hor : hit_tp t b = true ∨ hit_sl t b = true
        · cases hj : f.journalOk
          · rw [monitor_hit_journal_fail f b t (load_state w).balance w hor hj]
          · cases hs : f.saveOk
            · rw [monitor_hit_save_fail f b t (load_state w).balance w hor hj hs] at he
              cases he
              exact absurd rfl hne
            · rw [monitor_hit_ok f b t (load_state w).balance w hor hj hs] at he
              cases he
        · obtain ⟨h1, h2⟩ := not_or.mp hor
          rw [Bool.not_eq_true] at h1 h2
          rw [monitor_nohit f b t (load_state w).balance w h1 h2]
      | none =>
        cases hte : (load_state w).last_exit_time with
        | some te =>
          by_cases hc : b.Timestamp < te + COOLDOWN_MINS
          · rw [body_cooldown_block f bars b w te hf hb ht hte hc]
          · rw [body_entry f bars b w hf hb ht
              (fun te' h' => by rw [hte] at h'; cases h'; exact not_lt.mp hc)] at he ⊢
            cases hatr : atr14 bars with
            | none => rw [entry_eval_no_atr f bars b (load_state w) w hatr]
            | some a =>
              by_cases hband : ATR_MIN ≤ a ∧ a ≤ ATR_MAX
              · cases hdir : direction_of b.Close (emaVal bars) b.Open with
                | none => rw [entry_eval_no_dir f bars b (load_state w) w a hatr hband hdir]
                | some d =>
                  cases hs : f.saveOk
                  · rw [entry_eval_dir_save_fail f bars b (load_state w) w a d hatr hband hdir hs]
                  · rw [entry_eval_dir_ok f bars b (load_state w) w a d hatr hband hdir hs] at he
                    cases he
              · rw [entry_eval_out_of_band f bars b (load_state w) w a hatr hband]
        | none =>
          rw [body_entry f bars b w hf hb ht (fun te' h' => by rw [hte] at h'; cases h')] at he ⊢
          cases hatr : atr14 bars with
          | none => rw [entry_eval_no_atr f bars b (load_state w) w hatr]
          | some a =>
            by_cases hband : ATR_MIN ≤ a ∧ a ≤ ATR_MAX
            · cases hdir : direction_of b.Close (emaVal bars) b.Open with
              | none => rw [entry_eval_no_dir f bars b (load_state w) w a hatr hband hdir]
              | some d =>
                cases hs : f.saveOk
                · rw [entry_eval_dir_save_fail f bars b (load_state w) w a d hatr hband hdir hs]
                · rw [entry_eval_dir_ok f bars b (load_state w) w a d hatr hband hdir hs] at he
                  cases he
            · rw [entry_eval_out_of_band f bars b (load_state w) w a hatr hband]

/-- C8 amended witness: a fetch failure leaves the world unchanged. -/
theorem cycle_error_containment_witness :
    run_cycle ⟨false, true, true⟩ [] exC8_world = exC8_world :=
  (cycle_error_containment ⟨false, true, true⟩ [] exC8_world).2 CycleErr.fetch rfl
    (fun h => nomatch h)

/-- C9 data: an open LONG trade whose take-profit the next bar hits. -/
def exC9_trade : Trade :=
  { type := Dir.LONG, entry_time := 0, entry_price := 100, qty := 1, tp := 101, sl := 90 }

/-- C9 world: state file holds the open trade. -/
def exC9_world : World :=
  { stateFile := some { balance := 1000, active_trade := some exC9_trade, last_exit_time := none },
    journal := [] }

/-- C9 bar: a single bar — fewer than the 14 the indicators require —
whose high reaches the open trade's take-profit. -/
def exC9_bar : Bar := { Timestamp := 3, Open := 100, High := 102, Low := 99, Close := 101 }

/-- C9 counterexample: a cycle given fewer bars than the indicators
require (one bar) starting with an open position is NOT a no-op — the
position is monitored and closed, changing the persisted state. -/
theorem insufficient_bars_not_noop :
    ([exC9_bar] : List Bar).length < 14 ∧
    run_cycle ⟨true, true, true⟩ [exC9_bar] exC9_world ≠ exC9_world := by
  constructor
  · norm_num
  · have hor : hit_tp exC9_trade exC9_bar = true ∨ hit_sl exC9_trade exC9_bar = true :=
      Or.inl (by norm_num [hit_tp, exC9_trade, exC9_bar])
    have hbody := body_open ⟨true, true, true⟩ [exC9_bar] exC9_bar exC9_world exC9_trade rfl rfl rfl
    have hmon := monitor_hit_ok ⟨true, true, true⟩ exC9_bar exC9_trade
      (load_state exC9_world).balance exC9_world hor rfl rfl
    unfold run_cycle
    rw [hbody, hmon]
    intro hcontra
    have := congrArg (fun x => x.journal.length) hcontra
    simp [exC9_world] at this

/-- C9 amended: a cycle with no bars is a no-op for every starting
state; a cycle with fewer bars than the indicators require is a no-op
when flat (the volatility signal is undefined, so no entry), but an
open position is still monitored against the latest bar and may close. -/
theorem data_unavailable_noop (f : Faults) (bars : List Bar) (w : World) :
    (bars = [] → run_cycle f bars w = w) ∧
    (bars.length < 14 → (load_state w).active_trade = none → run_cycle f bars w = w) := by
  constructor
  · intro h
    subst h
    cases hf : f.fetchOk
    · unfold run_cycle
      rw [body_fetch_fail f [] w hf]
    · unfold run_cycle
      rw [body_no_bars f [] w hf rfl]
  · intro hlen hflat
    apply flat_cycle_noop_of_entry_noop f bars w hflat
    intro b hb
    have hnone : atr14 bars = none := by
      unfold atr14
      rw [if_pos hlen]
    rw [entry_eval_no_atr f bars b (load_state w) w hnone]

/-- C9 amended witness: an empty bar window is a no-op even with an
open position. -/
theorem data_unavailable_noop_witness :
    run_cycle ⟨true, true, true⟩ [] exC9_world = exC9_world :=
  (data_unavailable_noop ⟨true, true, true⟩ [] exC9_world).1 rfl

/-- C10: on a close, the ledger append runs before the state save: if
the ledger append raises, the cycle aborts with the state file (and the
whole world) unchanged; and whenever a cycle that starts with an open
position changes the state file, the matching close record has been
appended to the journal. -/
theorem journal_append_precedes_save (f : Faults) (bars : List Bar) (b : Bar) (w : World)
    (t : Trade)
    (hb : bars.getLast? = some b)
    (ht : (load_state w).active_trade = some t)
    (hf : f.fetchOk = true) :
    (f.journalOk = false → run_cycle f bars w = w) ∧
    ((run_cycle f bars w).stateFile ≠ w.stateFile →
      (run_cycle f bars w).journal =
        w.journal ++ [close_record t b.Timestamp (exit_price t b)
          (trade_pnl t (exit_price t b))
          ((load_state w).balance + trade_pnl t (exit_price t b))]) := by
  have hbody : run_cycle f bars w = (monitor f b t (load_state w).balance w).1 := by
    unfold run_cycle
    rw [body_open f bars b w t hf hb ht]
  by_cases hor : hit_tp t b = true ∨ hit_sl t b = true
  · constructor
    · intro hj
      rw [hbody, monitor_hit_journal_fail f b t (load_state w).balance w hor hj]
    · intro hne
      cases hj : f.journalOk
      · rw [hbody, monitor_hit_journal_fail f b t (load_state w).balance w hor hj] at hne
        exact absurd rfl hne
      · cases hs : f.saveOk
        · rw [hbody, monitor_hit_save_fail f b t (load_state w).balance w hor hj hs] at hne
          exact absurd rfl hne
        · rw [hbody, monitor_hit_ok f b t (load_state w).balance w hor hj hs]
          simp [exit_price]
  · obtain ⟨h1, h2⟩ := not_or.mp hor
    rw [Bool.not_eq_true] at h1 h2
    have hnoop : run_cycle f bars w = w := by
      rw [hbody, monitor_nohit f b t (load_state w).balance w h1 h2]
    constructor
    · intro _
      exact hnoop
    · intro hne
      rw [hnoop] at hne
      exact absurd rfl hne

/-- C10 data: an open LONG trade whose take-profit the next bar hits. -/
def exC10_trade : Trade :=
  { type := Dir.LONG, entry_time := 0, entry_price := 100, qty := 1, tp := 101, sl := 90 }

/-- C10 world: state file holds the open trade. -/
def exC10_world : World :=
  { stateFile := some { balance := 1000, active_trade := some exC10_trade, last_exit_time := none },
    journal := [] }

/-- C10 bar: the high reaches the take-profit of the open trade. -/
def exC10_bar : Bar := { Timestamp := 9, Open := 100, High := 102, Low := 99, Close := 101 }

/-- C10 witness: with the ledger append raising, the whole cycle —
state file included — is unchanged. -/
theorem journal_append_precedes_save_witness :
    run_cycle ⟨true, false, true⟩ [exC10_bar] exC10_world = exC10_world :=
  (journal_append_precedes_save ⟨true, false, true⟩ [exC10_bar] exC10_bar exC10_world
    exC10_trade rfl rfl rfl).1 rfl

end Scp
